import Mathlib

/-!
Verification of the env-audit extraction-and-merge pipeline.

The definitions below are a shallow embedding of the TypeScript source:
the Finding/FileRef data model and merge engine (src/utils, src/types),
the AST provider (ast-provider), the dotenv provider (dotenv-provider),
the shell provider (src/providers/shell-provider.ts) and the scan
orchestrator (core/scanner).  JavaScript truthiness on optional strings
(undefined or the empty string count as falsy) is modelled explicitly
wherever the source relies on it.
-/

namespace EnvAudit

/-- Source tags, src/types.ts (the Source union type). -/
inductive Source where
  | process
  | importmeta
  | docker
  | gha
  | shell
  | dotenv
  | ast
deriving DecidableEq, Repr

/-- FileRef, src/types.ts.  createFileRef resolves the path; inputs are
already absolute, so resolution is the identity here. -/
structure FileRef where
  filePath : String
  line : Nat
  column : Nat
  context : Option String
deriving DecidableEq, Repr

/-- Finding, src/types.ts.  Optional fields are Option; object freezing
has no observable effect in a pure embedding. -/
structure Finding where
  name : String
  source : Source
  files : List FileRef
  required : Bool
  defaultValue : Option String
  isPublic : Bool
  notes : Option (List String)
deriving DecidableEq, Repr

/-- createFileRef, src/utils (createFileRef). -/
def createFileRef (filePath : String) (line column : Nat) (context : Option String) : FileRef :=
  { filePath := filePath, line := line, column := column, context := context }

/-- The optional-bag argument of createFinding. -/
structure CreateFindingOptions where
  required : Option Bool
  defaultValue : Option String
  isPublic : Option Bool
  notes : Option (List String)

/-- createFinding, src/utils: required defaults to true, isPublic to false,
defaultValue and notes are set only when provided. -/
def createFinding (name : String) (source : Source) (files : List FileRef)
    (opts : CreateFindingOptions) : Finding :=
  { name := name
    source := source
    files := files
    required := opts.required.getD true
    defaultValue := opts.defaultValue
    isPublic := opts.isPublic.getD false
    notes := opts.notes }

/-- Position equality used for FileRef dedup: the (filePath, line, column)
triple, ignoring context. -/
def sameRefPos (a b : FileRef) : Bool :=
  a.filePath == b.filePath && a.line == b.line && a.column == b.column

/-- Keep the first occurrence of each position; mirrors the
filter/findIndex idiom in mergeFindings (keep an element exactly when no
earlier element shares its position). -/
def dedupByPosAux (seen : List FileRef) : List FileRef → List FileRef
  | [] => []
  | f :: rest =>
    if seen.any (fun g => sameRefPos g f) then dedupByPosAux seen rest
    else f :: dedupByPosAux (seen ++ [f]) rest

/-- First-occurrence deduplication of file references by position. -/
def dedupByPos (l : List FileRef) : List FileRef := dedupByPosAux [] l

/-- The fixed source-priority list of mergeFindings. -/
def sourceOrder : List Source :=
  [Source.ast, Source.process, Source.importmeta, Source.dotenv,
   Source.shell, Source.docker, Source.gha]

/-- JavaScript truthiness of an optional string: defined and non-empty. -/
def truthyStr : Option String → Bool
  | some s => s != ""
  | none => false

/-- JavaScript truthiness of the optional notes length check
(f.notes?.length): defined and non-zero. -/
def truthyNotes : Option (List String) → Bool
  | some l => l.length != 0
  | none => false

/-- mergeFindings, src/utils lines 79-119.  Throwing is modelled with
Except.error carrying the thrown message. -/
def mergeFindings : List Finding → Except String Finding
  | [] => Except.error "Cannot merge empty findings array"
  | [f] => Except.ok f
  | f0 :: f1 :: rest =>
    let findings := f0 :: f1 :: rest
    if !(findings.all (fun f => f.name == f0.name)) then
      Except.error "All findings must have the same name to merge"
    else
      let allFiles := findings.foldl (fun acc f => acc ++ f.files) []
      let uniqueFiles := dedupByPos allFiles
      let primarySource :=
        (sourceOrder.find? (fun s => findings.any (fun f => f.source == s))).getD f0.source
      Except.ok (createFinding f0.name primarySource uniqueFiles
        { required := some (findings.any (fun f => f.required))
          defaultValue := (findings.find? (fun f => truthyStr f.defaultValue)).bind
            (fun f => f.defaultValue)
          isPublic := some (findings.any (fun f => f.isPublic))
          notes :=
            if findings.any (fun f => truthyNotes f.notes) then
              some (findings.foldl (fun acc f => acc ++ f.notes.getD []) [])
            else none })

/-- isPublicVariable, src/utils: an empty name is falsy and never public. -/
def isPublicVariable (name : String) (prefixes : List String) : Bool :=
  if name == "" then false
  else prefixes.any (fun p => name.startsWith p)

/-- sourceToString: the string literal each Source member denotes in the
TypeScript union. -/
def sourceToString : Source → String
  | Source.process => "process"
  | Source.importmeta => "importmeta"
  | Source.docker => "docker"
  | Source.gha => "gha"
  | Source.shell => "shell"
  | Source.dotenv => "dotenv"
  | Source.ast => "ast"

/-- isValidSource, src/types.ts lines 474-477: the accepted-source list as
written in the source (it omits the string for Source.ast). -/
def isValidSource (s : String) : Bool :=
  ["process", "importmeta", "docker", "gha", "shell", "dotenv"].contains s

/-- isFinding, src/types.ts lines 484-494.  In this typed embedding the
structural checks (name is a string, files is an array, required and
isPublic are booleans) hold by construction, so the source-tag check is
the only discriminating conjunct. -/
def isFinding (f : Finding) : Bool :=
  isValidSource (sourceToString f.source)

/-! ### AST provider (ast-provider source file)

A small Babel-shaped expression syntax: enough structure to express the
member-access and destructuring shapes the provider pattern-matches on. -/

/-- Expression nodes as pattern-matched by the AST provider. -/
inductive Expr where
  | ident (name : String)
  | strLit (value : String)
  | numLit (value : Int)
  | callExpr (callee : String)
  | member (obj : Expr) (prop : Expr)
  | metaProp (meta : String) (property : String)
deriving DecidableEq, Repr

/-- A source position (line, column) as Babel reports it. -/
structure Pos where
  line : Nat
  column : Nat
deriving DecidableEq, Repr

/-- A node location span. -/
structure SrcSpan where
  startPos : Pos
  endPos : Pos
deriving DecidableEq, Repr

/-- EnvVarNode, src/types.ts: one raw AST observation. -/
structure EnvVarNode where
  name : String
  source : Source
  location : SrcSpan
  hasGuards : Bool
  defaultValue : Option String
  context : Option String
deriving DecidableEq, Repr

/-- The { hasGuards, defaultValue } record analyzeUsageContext returns. -/
structure GuardCtx where
  hasGuards : Bool
  defaultValue : Option String
deriving DecidableEq, Repr

/-- createEnvVarNode, ast-provider lines 364-385: the defaultValue spread
uses truthiness, so an empty-string default is dropped; context is never
set by the provider. -/
def createEnvVarNode (name : String) (source : Source) (loc : SrcSpan)
    (ctx : GuardCtx) : EnvVarNode :=
  { name := name
    source := source
    location := loc
    hasGuards := ctx.hasGuards
    defaultValue :=
      match ctx.defaultValue with
      | some v => if v == "" then none else some v
      | none => none
    context := none }

/-- The syntactic parents of an access node, innermost first, as
analyzeUsageContext inspects them: the immediate parent may be a
logical-OR or nullish-coalescing expression (with its right operand), a
ternary, or something else; an ancestor marked ifTest is an if statement
whose test contains the walked-from node. -/
inductive ParentNode where
  | logicalOr (right : Expr)
  | nullish (right : Expr)
  | conditional
  | ifTest
  | other
deriving DecidableEq, Repr

/-- The upward if-statement walk of analyzeUsageContext lines 349-356. -/
def isIfTestAnywhere (parents : List ParentNode) : Bool :=
  parents.any (fun p => match p with | ParentNode.ifTest => true | _ => false)

/-- analyzeUsageContext, ast-provider lines 317-362: the immediate parent
decides the guard and (for a string-literal right operand of || or ??)
the default; any enclosing if-test also registers a guard; the returned
defaultValue spread drops an empty string by truthiness. -/
def analyzeUsageContext (parents : List ParentNode) : GuardCtx :=
  let viaImmediate : Bool × Option String :=
    match parents.head? with
    | some (ParentNode.logicalOr r) =>
      (true, match r with | Expr.strLit v => some v | _ => none)
    | some (ParentNode.nullish r) =>
      (true, match r with | Expr.strLit v => some v | _ => none)
    | some ParentNode.conditional => (true, none)
    | _ => (false, none)
  { hasGuards := viaImmediate.1 || isIfTestAnywhere parents
    defaultValue :=
      match viaImmediate.2 with
      | some v => if v == "" then none else some v
      | none => none }

/-- analyzeProcessEnvAccess, ast-provider lines 163-211: a member access
process.env.NAME or process.env with a string-literal property becomes an
EnvVarNode whose source tag is the literal ast (the second bracket-notation
branch in the source is subsumed by the string-literal case here). -/
def analyzeProcessEnvAccess (node : Expr) (loc : SrcSpan)
    (parents : List ParentNode) : Option EnvVarNode :=
  match node with
  | Expr.member (Expr.member (Expr.ident objObj) (Expr.ident objProp)) prop =>
    if objObj == "process" && objProp == "env" then
      match prop with
      | Expr.ident n =>
        some (createEnvVarNode n Source.ast loc (analyzeUsageContext parents))
      | Expr.strLit v =>
        some (createEnvVarNode v Source.ast loc (analyzeUsageContext parents))
      | _ => none
    else none
  | _ => none

/-- analyzeImportMetaEnvAccess, ast-provider lines 213-251. -/
def analyzeImportMetaEnvAccess (node : Expr) (loc : SrcSpan)
    (parents : List ParentNode) : Option EnvVarNode :=
  match node with
  | Expr.member (Expr.member (Expr.metaProp m p) (Expr.ident objProp)) prop =>
    if objProp == "env" && m == "import" && p == "meta" then
      match prop with
      | Expr.ident n =>
        some (createEnvVarNode n Source.importmeta loc (analyzeUsageContext parents))
      | Expr.strLit v =>
        some (createEnvVarNode v Source.importmeta loc (analyzeUsageContext parents))
      | _ => none
    else none
  | _ => none

/-- The value slot of an object-pattern property: a plain binding or a
default clause (AssignmentPattern) with its right-hand expression. -/
inductive PropValue where
  | bindingIdent (name : String)
  | assignPat (right : Expr)
deriving DecidableEq, Repr

/-- One member of an object destructuring pattern. -/
inductive ObjectMember where
  | objectProp (key : Expr) (value : PropValue)
  | restElement
deriving DecidableEq, Repr

/-- The binding side of a variable declarator. -/
inductive BindPattern where
  | objectPattern (props : List ObjectMember)
  | identPattern (name : String)
deriving DecidableEq, Repr

/-- A variable declarator: binding pattern plus optional initializer. -/
structure VariableDeclarator where
  idPattern : BindPattern
  init : Option Expr
deriving DecidableEq, Repr

/-- The idiom-root test of analyzeDestructuring lines 262-283: process.env
gives the ast tag, import.meta.env gives importmeta. -/
def destructuringSource (init : Option Expr) : Option Source :=
  match init with
  | some (Expr.member (Expr.ident o) (Expr.ident p)) =>
    if o == "process" && p == "env" then some Source.ast else none
  | some (Expr.member (Expr.metaProp m mp) (Expr.ident p)) =>
    if m == "import" && mp == "meta" && p == "env" then some Source.importmeta
    else none
  | _ => none

/-- Per-property step of analyzeDestructuring lines 290-312: a default
clause only registers a guard (and captures the default) when its right
side is a truthy string literal, otherwise the property is treated like a
plain binding with hasGuards false. -/
def destructureProp (src : Source) (loc : SrcSpan) : ObjectMember → Option EnvVarNode
  | ObjectMember.objectProp (Expr.ident k) (PropValue.assignPat right) =>
    let defaultValue : Option String :=
      match right with | Expr.strLit v => some v | _ => none
    let ctxOpts : GuardCtx :=
      match defaultValue with
      | some v =>
        if v == "" then { hasGuards := false, defaultValue := none }
        else { hasGuards := true, defaultValue := some v }
      | none => { hasGuards := false, defaultValue := none }
    some (createEnvVarNode k src loc ctxOpts)
  | ObjectMember.objectProp (Expr.ident k) (PropValue.bindingIdent _) =>
    some (createEnvVarNode k src loc { hasGuards := false, defaultValue := none })
  | _ => none

/-- analyzeDestructuring, ast-provider lines 253-315. -/
def analyzeDestructuring (decl : VariableDeclarator) (loc : SrcSpan) : List EnvVarNode :=
  match decl.idPattern with
  | BindPattern.identPattern _ => []
  | BindPattern.objectPattern props =>
    match destructuringSource decl.init with
    | none => []
    | some src => props.filterMap (destructureProp src loc)

/-- The file-local finding key of convertNodesToFindings. -/
def nodeKey (n : EnvVarNode) : String := sourceToString n.source ++ ":" ++ n.name

/-- Map.set on an association list: replacing an existing key keeps its
position, a new key is appended (JavaScript Map insertion order). -/
def upsertFinding (acc : List (String × Finding)) (key : String) (f : Finding) :
    List (String × Finding) :=
  if acc.any (fun p => p.1 == key) then
    acc.map (fun p => if p.1 == key then (p.1, f) else p)
  else acc ++ [(key, f)]

/-- One node of the convertNodesToFindings fold, ast-provider lines
397-437: occurrences of the same (source, name) key within a file merge
their FileRefs, AND the negated guard flags into required, keep the first
default by the existing-first nullish rule, and OR isPublic. -/
def convertStep (filePath : String) (publicPrefixes : List String)
    (acc : List (String × Finding)) (node : EnvVarNode) : List (String × Finding) :=
  let key := nodeKey node
  let fileRef := createFileRef filePath node.location.startPos.line
    node.location.startPos.column node.context
  match acc.find? (fun p => p.1 == key) with
  | some pr =>
    let existing := pr.2
    let updated := createFinding node.name node.source (existing.files ++ [fileRef])
      { required := some (existing.required && !node.hasGuards)
        defaultValue :=
          if truthyStr existing.defaultValue || truthyStr node.defaultValue then
            match existing.defaultValue with
            | some v => some v
            | none => node.defaultValue
          else none
        isPublic := some (existing.isPublic || isPublicVariable node.name publicPrefixes)
        notes := none }
    upsertFinding acc key updated
  | none =>
    let finding := createFinding node.name node.source [fileRef]
      { required := some (!node.hasGuards)
        defaultValue := if truthyStr node.defaultValue then node.defaultValue else none
        isPublic := some (isPublicVariable node.name publicPrefixes)
        notes := none }
    acc ++ [(key, finding)]

/-- convertNodesToFindings, ast-provider lines 387-440. -/
def convertNodesToFindings (nodes : List EnvVarNode) (filePath : String)
    (publicPrefixes : List String) : List Finding :=
  (nodes.foldl (convertStep filePath publicPrefixes) []).map (fun p => p.2)

/-! ### String and line helpers shared by the text-oriented providers -/

/-- The double-quote character. -/
def dquote : Char := Char.ofNat 34

/-- The single-quote character. -/
def squote : Char := Char.ofNat 39

/-- JavaScript whitespace as relevant to trim and the regex class used on
single lines (space, tab, newline, carriage return, vertical tab,
form feed). -/
def isWsChar (c : Char) : Bool :=
  c == ' ' || c == '\t' || c == '\n' || c == '\r' ||
    c == Char.ofNat 11 || c == Char.ofNat 12

/-- String.prototype.trim on a character list. -/
def jsTrim (s : List Char) : List Char :=
  ((s.dropWhile isWsChar).reverse.dropWhile isWsChar).reverse

/-- String.prototype.indexOf for a single character. -/
def idxOfChar (c : Char) : List Char → Option Nat
  | [] => none
  | a :: rest => if a == c then some 0 else (idxOfChar c rest).map (fun i => i + 1)

/-- Occurrence count of a character (the match-global counting idiom). -/
def countChar (c : Char) (s : List Char) : Nat :=
  (s.filter (fun a => a == c)).length

/-- First character of the identifier grammar [A-Za-z_]. -/
def isEnvNameStart (c : Char) : Bool := c.isAlpha || c == '_'

/-- Later characters of the identifier grammar [A-Za-z0-9_]. -/
def isEnvNameChar (c : Char) : Bool := c.isAlphanum || c == '_'

/-- isValidEnvVarName, src/utils: the anchored identifier regex. -/
def isValidEnvVarName (name : String) : Bool :=
  match name.toList with
  | [] => false
  | c :: rest => isEnvNameStart c && rest.all isEnvNameChar

/-- Greedy identifier munch: the leading [A-Za-z_][A-Za-z0-9_]* of a
character list, with the remainder.  (No shorter match can ever satisfy
the contexts where this is used, because an identifier character is never
a brace, equals sign, colon or whitespace, so greedy matching without
backtracking is faithful to the regexes involved.) -/
def takeEnvName : List Char → Option (List Char × List Char)
  | [] => none
  | c :: rest =>
    if isEnvNameStart c then
      some (c :: rest.takeWhile isEnvNameChar, rest.dropWhile isEnvNameChar)
    else none

/-- Strip one layer of matching surrounding quotes (the
startsWith/endsWith + slice(1, -1) idiom; a lone quote character counts
as both its own start and end, yielding the empty string, exactly as
slice does). -/
def stripMatchingQuotes (s : List Char) : List Char :=
  if s.head? == some dquote && s.getLast? == some dquote then (s.drop 1).dropLast
  else if s.head? == some squote && s.getLast? == some squote then (s.drop 1).dropLast
  else s

/-- String.prototype.split on one separator character. -/
def splitOnChar (sep : Char) : List Char → List (List Char)
  | [] => [[]]
  | c :: rest =>
    let r := splitOnChar sep rest
    if c == sep then [] :: r
    else
      match r with
      | h :: t => (c :: h) :: t
      | [] => [[c]]

/-! ### Dotenv provider (dotenv-provider source file) -/

/-- The parsed shape parseEnvLine returns. -/
structure EnvLine where
  name : String
  defaultValue : Option String
  hasDefault : Bool
  comment : Option String
deriving DecidableEq, Repr

/-- The fixed placeholder vocabulary of parseEnvValue (compared against
the upper-cased value, so the lowercase member can never match — kept as
written in the source). -/
def placeholderVocab : List String :=
  ["", "YOUR_VALUE_HERE", "CHANGE_ME", "REPLACE_ME", "TODO", "TBD", "...", "xxx", "XXX"]

/-- parseEnvValue, dotenv-provider lines 163-199: trim, strip symmetric
quotes, reject placeholder values. -/
def parseEnvValue (value : List Char) : Option (List Char) × Bool :=
  if value.isEmpty then (none, false)
  else
    let stripped := stripMatchingQuotes (jsTrim value)
    if placeholderVocab.contains (String.mk (stripped.map Char.toUpper)) then (none, false)
    else (some stripped, true)

/-- The NAME\s*=\s*VALUE line regex of parseEnvLine: anchored identifier,
optional whitespace, equals sign, optional whitespace, rest of line. -/
def matchAssign (s : List Char) : Option (List Char × List Char) :=
  match takeEnvName s with
  | none => none
  | some (name, rest) =>
    match rest.dropWhile isWsChar with
    | c :: rest2 => if c == '=' then some (name, rest2.dropWhile isWsChar) else none
    | [] => none

/-- parseEnvLine, dotenv-provider lines 99-161: a trailing comment is
recognized only when the hash sign is not at position zero and both quote
counts before it are even; then the identifier grammar is enforced and
the value classified.  (The regex guarantees a non-empty name, so the
separate falsy-name check in the source can never fire.) -/
def parseEnvLine (line : List Char) : Option EnvLine :=
  let wc : List Char × Option (List Char) :=
    match idxOfChar '#' line with
    | some ci =>
      if ci > 0 then
        let beforeComment := line.take ci
        if countChar squote beforeComment % 2 == 0 &&
            countChar dquote beforeComment % 2 == 0 then
          (jsTrim beforeComment, some (jsTrim (line.drop (ci + 1))))
        else (line, none)
      else (line, none)
    | none => (line, none)
  match matchAssign wc.1 with
  | none => none
  | some (name, value) =>
    if !(isValidEnvVarName (String.mk name)) then none
    else
      let pv := parseEnvValue value
      some { name := String.mk name
             defaultValue := pv.1.map String.mk
             hasDefault := pv.2
             comment := wc.2.map String.mk }

/-- One line of the dotenv scanFile loop, dotenv-provider lines 62-94:
skip blank and comment lines, parse, and build the Finding (required when
no default; truthiness drops an empty default and an empty comment). -/
def dotenvScanLine (filePath : String) (publicPrefixes : List String)
    (lineNumber : Nat) (rawLine : List Char) : List Finding :=
  let line := jsTrim rawLine
  if line.isEmpty || line.head? == some '#' then []
  else
    match parseEnvLine line with
    | none => []
    | some ev =>
      let fileRef := createFileRef filePath lineNumber 1 ev.comment
      [createFinding ev.name Source.dotenv [fileRef]
        { required := some (!ev.hasDefault)
          defaultValue := if truthyStr ev.defaultValue then ev.defaultValue else none
          isPublic := some (isPublicVariable ev.name publicPrefixes)
          notes :=
            match ev.comment with
            | some c => if c == "" then none else some [c]
            | none => none }]

/-- The pure content part of the dotenv provider scanFile: split on
newlines and process each line with its 1-based number. -/
def dotenvScanContent (content : String) (filePath : String)
    (publicPrefixes : List String) : List Finding :=
  ((splitOnChar '\n' content.toList).enum.map
    (fun p => dotenvScanLine filePath publicPrefixes (p.1 + 1) p.2)).flatten

/-! ### Shell provider (src/providers/shell-provider.ts)

The varRef pattern admits a dollar sign followed either by a braced
group whose content is an identifier with at most one `:-`-dashed default
clause (group 1), or by a bare identifier (group 2).  Note the braced
alternative grammar allows a colon only as part of the two-character
dash-default operator. -/

/-- One regex match of the varRef pattern: 0-based match index, full
match length, and the two capture groups. -/
structure RawMatch where
  index : Nat
  len : Nat
  group1 : Option (List Char)
  group2 : Option (List Char)
deriving DecidableEq, Repr

/-- Match the braced alternative of varRef directly after the dollar
sign; returns capture group 1 and the remainder after the closing brace.
The character class after the dash-default operator is greedy but cannot
cross a closing brace, and no backtracking of the identifier can rescue a
failed parse (identifier characters are neither colons nor braces), so
this deterministic parse is faithful to the regex. -/
def matchBraced (s : List Char) : Option (List Char × List Char) :=
  match s with
  | c :: rest =>
    if c == Char.ofNat 123 then
      match takeEnvName rest with
      | some (name, rest2) =>
        match rest2 with
        | c2 :: rest3 =>
          if c2 == Char.ofNat 125 then some (name, rest3)
          else if c2 == ':' then
            match rest3 with
            | c3 :: rest4 =>
              if c3 == '-' then
                let content := rest4.takeWhile (fun a => a != Char.ofNat 125)
                match rest4.dropWhile (fun a => a != Char.ofNat 125) with
                | _ :: rest5 => some (name ++ [':', '-'] ++ content, rest5)
                | [] => none
              else none
            | [] => none
          else none
        | [] => none
      | none => none
    else none
  | [] => none

/-- Repeated global application of the varRef pattern: scan left to
right, resuming after the end of each match as exec with the global flag
does.  Each step consumes at least one character, so the input length is
sufficient fuel. -/
def varRefScanAux : Nat → List Char → Nat → List RawMatch
  | 0, _, _ => []
  | _ + 1, [], _ => []
  | fuel + 1, c :: rest, idx =>
    if c == '$' then
      match matchBraced rest with
      | some (g1, rest2) =>
        let fullLen := 1 + (rest.length - rest2.length)
        { index := idx, len := fullLen, group1 := some g1, group2 := none } ::
          varRefScanAux fuel rest2 (idx + fullLen)
      | none =>
        match takeEnvName rest with
        | some (nm, rest2) =>
          let fullLen := 1 + nm.length
          { index := idx, len := fullLen, group1 := none, group2 := some nm } ::
            varRefScanAux fuel rest2 (idx + fullLen)
        | none => varRefScanAux fuel rest (idx + 1)
    else varRefScanAux fuel rest (idx + 1)

/-- All varRef matches of one line. -/
def varRefScan (s : List Char) : List RawMatch := varRefScanAux s.length s 0

/-- String.prototype.includes for a two-character sequence. -/
def containsSep2 (c1 c2 : Char) : List Char → Bool
  | a :: b :: rest => (a == c1 && b == c2) || containsSep2 c1 c2 (b :: rest)
  | _ => false

/-- String.prototype.split on a two-character separator (all segments;
callers keep the first two, as split with limit 2 does). -/
def splitSep2 (c1 c2 : Char) : List Char → List (List Char)
  | [] => [[]]
  | [c] => [[c]]
  | a :: b :: rest =>
    if a == c1 && b == c2 then [] :: splitSep2 c1 c2 rest
    else
      match splitSep2 c1 c2 (b :: rest) with
      | h :: t => (a :: h) :: t
      | [] => [[a]]

/-- The extracted reference shape of extractVariableReferences. -/
structure ShellVarRef where
  name : String
  hasDefault : Bool
  defaultValue : Option String
  startColumn : Nat
  endColumn : Nat
deriving DecidableEq, Repr

/-- Per-match processing of extractVariableReferences, shell-provider
lines 221-283: a braced group containing the dash-default operator (or,
in a branch the varRef pattern can never feed, the assign-default
operator) splits into name and default with one quote layer stripped;
otherwise the group is a plain name.  An empty name is skipped. -/
def processMatch (m : RawMatch) : Option ShellVarRef :=
  let parsed : List Char × Bool × Option (List Char) :=
    match m.group1 with
    | some braced =>
      if containsSep2 ':' '-' braced then
        let parts := splitSep2 ':' '-' braced
        ((parts.headD []), true, some (stripMatchingQuotes ((parts.drop 1).headD [])))
      else if containsSep2 ':' '=' braced then
        let parts := splitSep2 ':' '=' braced
        ((parts.headD []), true, some (stripMatchingQuotes ((parts.drop 1).headD [])))
      else (braced, false, none)
    | none => (m.group2.getD [], false, none)
  if parsed.1.isEmpty then none
  else
    some { name := String.mk parsed.1
           hasDefault := parsed.2.1
           defaultValue := parsed.2.2.map String.mk
           startColumn := m.index + 1
           endColumn := m.index + m.len }

/-- extractVariableReferences, shell-provider lines 202-286. -/
def extractVariableReferences (line : String) : List ShellVarRef :=
  (varRefScan line.toList).filterMap processMatch

/-! ### Scan orchestrator (core/scanner source file)

Provider include/exclude filtering and file discovery happen before the
part modelled here: a scan is driven by the outcome of each enabled
provider's scan call, where a rejected promise is an error value. -/

/-- One enabled provider together with the outcome of its scan call. -/
structure ProviderRun where
  name : String
  result : Except String (List Finding)

/-- runProviders, scanner lines 205-239: each provider failure is caught
and replaced by the empty findings list for that provider. -/
def runProviders (provs : List ProviderRun) : List (String × List Finding) :=
  provs.map (fun p =>
    (p.name, match p.result with
             | Except.ok fs => fs
             | Except.error _ => []))

/-- One finding of the grouping fold of mergeAndDeduplicateFindings:
an existing name group is extended in place, a new name is appended
(JavaScript Map insertion order). -/
def groupByNameStep (acc : List (String × List Finding)) (f : Finding) :
    List (String × List Finding) :=
  if acc.any (fun p => p.1 == f.name) then
    acc.map (fun p => if p.1 == f.name then (p.1, p.2 ++ [f]) else p)
  else acc ++ [(f.name, [f])]

/-- Group findings by exact name, scanner lines 278-287. -/
def groupByName (fs : List Finding) : List (String × List Finding) :=
  fs.foldl groupByNameStep []

/-- The per-group branch of scanner lines 292-300: singleton groups pass
through unchanged, larger groups go through mergeFindings (whose thrown
error would propagate). -/
def mergeGroup (fs : List Finding) : Except String Finding :=
  match fs with
  | [f] => Except.ok f
  | other => mergeFindings other

/-- The name sort of scanner lines 302-305; localeCompare is modelled as
lexicographic string order (a deterministic total order). -/
def localeSortByName (fs : List Finding) : List Finding :=
  fs.mergeSort (fun a b => decide (a.name ≤ b.name))

/-- mergeAndDeduplicateFindings, scanner lines 267-306. -/
def mergeAndDeduplicateFindings (providerResults : List (String × List Finding)) :
    Except String (List Finding) :=
  let allFindings := providerResults.foldl (fun acc p => acc ++ p.2) []
  match (groupByName allFindings).mapM (fun p => mergeGroup p.2) with
  | Except.error e => Except.error e
  | Except.ok merged => Except.ok (localeSortByName merged)

/-- The statistics record assembled by scan (the fields the core owns;
parseErrors is the constant zero the source writes). -/
structure ScanStats where
  totalFiles : Nat
  totalFindings : Nat
  parseErrors : Nat
deriving DecidableEq, Repr

/-- The scan result: merged findings plus statistics. -/
structure ScanResult where
  findings : List Finding
  stats : ScanStats
deriving DecidableEq, Repr

/-- The pure core of Scanner.scan, scanner lines 64-137, as a function of
the discovered file count and the per-provider outcomes: run the enabled
providers with failures replaced by empty contributions, merge, and
assemble the result record. -/
def scanFromProviderRuns (totalFiles : Nat) (provs : List ProviderRun) :
    Except String ScanResult :=
  match mergeAndDeduplicateFindings (runProviders provs) with
  | Except.error e => Except.error e
  | Except.ok merged =>
    Except.ok { findings := merged
                stats := { totalFiles := totalFiles
                           totalFindings := merged.length
                           parseErrors := 0 } }

end EnvAudit

namespace EnvAudit

/-- C7: merging an empty findings list throws (never returns a Finding). -/
theorem mergeFindings_empty_throws :
    mergeFindings [] = Except.error "Cannot merge empty findings array" := rfl

/-- C1: for a non-empty group of findings that all share one name,
mergeFindings succeeds and the merged required flag is the logical OR of
the members' required flags. -/
theorem mergeFindings_required_or (fs : List Finding) (h1 : fs ≠ [])
    (h2 : ∀ f ∈ fs, ∀ g ∈ fs, f.name = g.name) :
    (mergeFindings fs).toOption.map (fun m => m.required) =
      some (fs.any (fun f => f.required)) := by
  match fs with
  | [] => exact absurd rfl h1
  | [f] => simp [mergeFindings, Except.toOption, List.any]
  | f0 :: f1 :: rest =>
    have hall : ((f0 :: f1 :: rest).all (fun f => f.name == f0.name)) = true := by
      rw [List.all_eq_true]
      intro f hf
      exact beq_iff_eq.mpr (h2 f hf f0 (by simp))
    simp [mergeFindings, hall, createFinding, Except.toOption]

/-- C1 witness: the theorem applied to a concrete two-element group. -/
theorem mergeFindings_required_or_witness :
    (mergeFindings
        [⟨"API_KEY", Source.ast, [⟨"/app/a.ts", 1, 1, none⟩], true, none, false, none⟩,
         ⟨"API_KEY", Source.dotenv, [⟨"/app/.env", 2, 1, none⟩], false, some "k", false,
          none⟩]).toOption.map (fun m => m.required) =
      some
        (([⟨"API_KEY", Source.ast, [⟨"/app/a.ts", 1, 1, none⟩], true, none, false, none⟩,
           ⟨"API_KEY", Source.dotenv, [⟨"/app/.env", 2, 1, none⟩], false, some "k", false, none⟩] :
           List Finding).any (fun f => f.required)) :=
  mergeFindings_required_or _ (by simp) (by decide)

/-- C9: merging two or more findings that do not all share one name throws
the name-mismatch error instead of returning a merged Finding. -/
theorem mergeFindings_name_mismatch (f0 f1 : Finding) (rest : List Finding)
    (h : ∃ f ∈ f0 :: f1 :: rest, ∃ g ∈ f0 :: f1 :: rest, f.name ≠ g.name) :
    mergeFindings (f0 :: f1 :: rest) =
      Except.error "All findings must have the same name to merge" := by
  have hall : ((f0 :: f1 :: rest).all (fun f => f.name == f0.name)) = false := by
    cases hx : (f0 :: f1 :: rest).all (fun f => f.name == f0.name) with
    | false => rfl
    | true =>
      exfalso
      rw [List.all_eq_true] at hx
      obtain ⟨f, hf, g, hg, hne⟩ := h
      have e1 : f.name = f0.name := beq_iff_eq.mp (hx f hf)
      have e2 : g.name = f0.name := beq_iff_eq.mp (hx g hg)
      exact hne (e1.trans e2.symm)
  simp only [mergeFindings, hall, Bool.not_false, if_true]

/-- C9 witness: the theorem applied to two findings named A and B. -/
theorem mergeFindings_name_mismatch_witness :
    mergeFindings
      [⟨"A", Source.ast, [], true, none, false, none⟩,
       ⟨"B", Source.shell, [], true, none, false, none⟩] =
      Except.error "All findings must have the same name to merge" :=
  mergeFindings_name_mismatch _ _ _ (by decide)

/-- C8: a group holding one required finding without a default and one
optional finding with a default merges into a Finding that is
simultaneously required and carries that defaultValue. -/
theorem mergeFindings_required_with_default :
    (mergeFindings
        [⟨"DATABASE_URL", Source.ast, [⟨"/app/src/app.ts", 3, 10, none⟩], true, none, false, none⟩,
         ⟨"DATABASE_URL", Source.dotenv, [⟨"/app/.env", 1, 1, none⟩], false,
          some "postgresql://localhost:5432/app", false, none⟩]).toOption.map
      (fun m => (m.required, m.defaultValue)) =
      some (true, some "postgresql://localhost:5432/app") := by
  decide

/-- C10: a Finding carrying the ast source tag (the tag the AST provider
assigns) is rejected by both runtime guards: isValidSource does not list
the ast tag and isFinding therefore fails. -/
theorem astSource_rejected_by_guards (f : Finding) (h : f.source = Source.ast) :
    isValidSource (sourceToString f.source) = false ∧ isFinding f = false := by
  simp only [isFinding, h]
  decide

/-- C10 witness: the theorem applied to a concrete ast-tagged Finding. -/
theorem astSource_rejected_by_guards_witness :
    isValidSource (sourceToString
        (Finding.mk "X" Source.ast [] true none false none).source) = false ∧
      isFinding (Finding.mk "X" Source.ast [] true none false none) = false :=
  astSource_rejected_by_guards (Finding.mk "X" Source.ast [] true none false none) rfl

/-- C2 counterexample: the observation of process.env.API_KEY carries
source tag ast, not process, so the claimed tag is wrong at this input. -/
theorem processEnv_tag_counterexample :
    (analyzeProcessEnvAccess
        (Expr.member (Expr.member (Expr.ident "process") (Expr.ident "env"))
          (Expr.ident "API_KEY"))
        ⟨⟨1, 0⟩, ⟨1, 19⟩⟩ []).map (fun n => n.source) = some Source.ast ∧
      (analyzeProcessEnvAccess
          (Expr.member (Expr.member (Expr.ident "process") (Expr.ident "env"))
            (Expr.ident "API_KEY"))
          ⟨⟨1, 0⟩, ⟨1, 19⟩⟩ []).map (fun n => n.source) ≠ some Source.process := by
  decide

/-- C2 (amended): every process-environment observation of the AST
provider carries source tag ast (not process); import.meta.env
observations carry importmeta; destructuring from process.env also
yields ast-tagged observations. -/
theorem astProvider_source_tags :
    (∀ e loc parents n, analyzeProcessEnvAccess e loc parents = some n →
      n.source = Source.ast) ∧
    (∀ e loc parents n, analyzeImportMetaEnvAccess e loc parents = some n →
      n.source = Source.importmeta) ∧
    (∀ props loc n,
      n ∈ analyzeDestructuring
            ⟨BindPattern.objectPattern props,
             some (Expr.member (Expr.ident "process") (Expr.ident "env"))⟩ loc →
      n.source = Source.ast) := by
  refine ⟨?_, ?_, ?_⟩
  · intro e loc parents n h
    unfold analyzeProcessEnvAccess at h
    repeat' split at h
    all_goals cases h
    all_goals rfl
  · intro e loc parents n h
    unfold analyzeImportMetaEnvAccess at h
    repeat' split at h
    all_goals cases h
    all_goals rfl
  · intro props loc n hmem
    have hsrc : destructuringSource
        (some (Expr.member (Expr.ident "process") (Expr.ident "env"))) =
        some Source.ast := by decide
    simp only [analyzeDestructuring, hsrc] at hmem
    rw [List.mem_filterMap] at hmem
    obtain ⟨m, hm, he⟩ := hmem
    unfold destructureProp at he
    repeat' split at he
    all_goals cases he
    all_goals rfl

/-- C2 witness: the amended theorem applied to concrete accesses of each
of the three shapes. -/
theorem astProvider_source_tags_witness :
    ((analyzeProcessEnvAccess
        (Expr.member (Expr.member (Expr.ident "process") (Expr.ident "env"))
          (Expr.ident "FOO"))
        ⟨⟨1, 0⟩, ⟨1, 15⟩⟩ []).getD
        (createEnvVarNode "d" Source.process ⟨⟨1, 0⟩, ⟨1, 0⟩⟩ ⟨false, none⟩)).source =
      Source.ast ∧
    ((analyzeImportMetaEnvAccess
        (Expr.member (Expr.member (Expr.metaProp "import" "meta") (Expr.ident "env"))
          (Expr.ident "BAR"))
        ⟨⟨2, 0⟩, ⟨2, 20⟩⟩ []).getD
        (createEnvVarNode "d" Source.process ⟨⟨1, 0⟩, ⟨1, 0⟩⟩ ⟨false, none⟩)).source =
      Source.importmeta ∧
    ((analyzeDestructuring
        ⟨BindPattern.objectPattern
           [ObjectMember.objectProp (Expr.ident "BAZ") (PropValue.bindingIdent "BAZ")],
         some (Expr.member (Expr.ident "process") (Expr.ident "env"))⟩
        ⟨⟨3, 0⟩, ⟨3, 30⟩⟩).headD
        (createEnvVarNode "d" Source.process ⟨⟨1, 0⟩, ⟨1, 0⟩⟩ ⟨false, none⟩)).source =
      Source.ast :=
  ⟨astProvider_source_tags.1
     (Expr.member (Expr.member (Expr.ident "process") (Expr.ident "env")) (Expr.ident "FOO"))
     ⟨⟨1, 0⟩, ⟨1, 15⟩⟩ [] _ (by decide),
   astProvider_source_tags.2.1
     (Expr.member (Expr.member (Expr.metaProp "import" "meta") (Expr.ident "env"))
       (Expr.ident "BAR"))
     ⟨⟨2, 0⟩, ⟨2, 20⟩⟩ [] _ (by decide),
   astProvider_source_tags.2.2
     [ObjectMember.objectProp (Expr.ident "BAZ") (PropValue.bindingIdent "BAZ")]
     ⟨⟨3, 0⟩, ⟨3, 30⟩⟩ _ (by decide)⟩

/-- C3 counterexample: a destructured key with the numeric default 42
yields an observation with hasGuards false (the claim states true); no
defaultValue is recorded. -/
theorem destructuring_numeric_default_counterexample :
    (analyzeDestructuring
        ⟨BindPattern.objectPattern
           [ObjectMember.objectProp (Expr.ident "KEY")
              (PropValue.assignPat (Expr.numLit 42))],
         some (Expr.member (Expr.ident "process") (Expr.ident "env"))⟩
        ⟨⟨1, 6⟩, ⟨1, 12⟩⟩).map (fun n => (n.hasGuards, n.defaultValue)) =
      [(false, none)] := by
  decide

/-- C3 (amended): a destructured key whose default clause has a
non-string-literal right side yields an observation with no defaultValue
and hasGuards false, so that occurrence counts as required. -/
theorem destructuring_nonstring_default (k : String) (e : Expr) (loc : SrcSpan)
    (fp : String) (prefixes : List String) (h : ∀ v, e ≠ Expr.strLit v) :
    (analyzeDestructuring
        ⟨BindPattern.objectPattern
           [ObjectMember.objectProp (Expr.ident k) (PropValue.assignPat e)],
         some (Expr.member (Expr.ident "process") (Expr.ident "env"))⟩ loc).map
      (fun n => (n.name, n.hasGuards, n.defaultValue)) = [(k, false, none)] ∧
    (convertNodesToFindings
        (analyzeDestructuring
          ⟨BindPattern.objectPattern
             [ObjectMember.objectProp (Expr.ident k) (PropValue.assignPat e)],
           some (Expr.member (Expr.ident "process") (Expr.ident "env"))⟩ loc)
        fp prefixes).map (fun f => f.required) = [true] := by
  have hdv : (match e with | Expr.strLit v => some v | _ => none) = (none : Option String) := by
    cases e
    case strLit v => exact absurd rfl (h v)
    all_goals rfl
  have hsrc : destructuringSource
      (some (Expr.member (Expr.ident "process") (Expr.ident "env"))) =
      some Source.ast := by decide
  have hnodes : analyzeDestructuring
      ⟨BindPattern.objectPattern
         [ObjectMember.objectProp (Expr.ident k) (PropValue.assignPat e)],
       some (Expr.member (Expr.ident "process") (Expr.ident "env"))⟩ loc =
      [createEnvVarNode k Source.ast loc { hasGuards := false, defaultValue := none }] := by
    simp [analyzeDestructuring, hsrc, destructureProp, hdv]
  rw [hnodes]
  constructor
  · rfl
  · simp [convertNodesToFindings, convertStep, createFinding, createEnvVarNode]

/-- C3 witness: the amended theorem applied to the concrete declarator
with numeric default 42. -/
theorem destructuring_nonstring_default_witness :
    (analyzeDestructuring
        ⟨BindPattern.objectPattern
           [ObjectMember.objectProp (Expr.ident "PORT")
              (PropValue.assignPat (Expr.numLit 3000))],
         some (Expr.member (Expr.ident "process") (Expr.ident "env"))⟩
        ⟨⟨2, 6⟩, ⟨2, 14⟩⟩).map
      (fun n => (n.name, n.hasGuards, n.defaultValue)) = [("PORT", false, none)] ∧
    (convertNodesToFindings
        (analyzeDestructuring
          ⟨BindPattern.objectPattern
             [ObjectMember.objectProp (Expr.ident "PORT")
                (PropValue.assignPat (Expr.numLit 3000))],
           some (Expr.member (Expr.ident "process") (Expr.ident "env"))⟩
          ⟨⟨2, 6⟩, ⟨2, 14⟩⟩)
        "/app/server.ts" []).map (fun f => f.required) = [true] :=
  destructuring_nonstring_default "PORT" (Expr.numLit 3000) ⟨⟨2, 6⟩, ⟨2, 14⟩⟩
    "/app/server.ts" [] (fun _ hv => Expr.noConfusion hv)

/-- C5: the declaration-file line NAME="hello world" # comment yields
exactly one finding named NAME with the double quotes stripped from the
default, required false, and the trailing comment as the single note. -/
theorem dotenv_line_roundTrip :
    dotenvScanContent "NAME=\"hello world\" # comment" "/app/.env" [] =
      [{ name := "NAME", source := Source.dotenv,
         files := [{ filePath := "/app/.env", line := 1, column := 1,
                     context := some "comment" }],
         required := false, defaultValue := some "hello world", isPublic := false,
         notes := some ["comment"] }] := by
  decide

/-- C4: evaluation at the failing input.  The assign-default form
yields no reference at all (the varRef pattern only admits the
dash-default operator inside braces, so the assign-default branch of
extractVariableReferences is unreachable), while the dash-default form on
the same line shape yields the claimed reference with hasDefault true and
the captured default. -/
theorem shell_assignDefault_unmatched :
    extractVariableReferences "echo $\x7bNAME:=default\x7d" = [] ∧
      extractVariableReferences "echo $\x7bNAME:-default\x7d" =
        [{ name := "NAME", hasDefault := true, defaultValue := some "default",
           startColumn := 6, endColumn := 21 }] := by
  decide

/-- C6: when every enabled provider's scan fails, the scan still returns
a valid result whose findings list is empty, with the provider errors
replaced by empty contributions rather than propagated. -/
theorem scan_allProvidersFail_emptyResult (totalFiles : Nat) (provs : List ProviderRun)
    (h : ∀ p ∈ provs, ∃ e, p.result = Except.error e) :
    scanFromProviderRuns totalFiles provs =
      Except.ok { findings := []
                  stats := { totalFiles := totalFiles, totalFindings := 0,
                             parseErrors := 0 } } := by
  have hall : ∀ provs2 : List ProviderRun,
      (∀ p ∈ provs2, ∃ e, p.result = Except.error e) →
      ∀ acc : List Finding,
        (runProviders provs2).foldl (fun a q => a ++ q.2) acc = acc := by
    intro provs2
    induction provs2 with
    | nil => intro _ acc; rfl
    | cons p ps ih =>
      intro h2 acc
      obtain ⟨e, he⟩ := h2 p (List.mem_cons_self p ps)
      have hstep : runProviders (p :: ps) =
          (p.name, ([] : List Finding)) :: runProviders ps := by
        simp [runProviders, he]
      rw [hstep]
      simp only [List.foldl_cons, List.append_nil]
      exact ih (fun q hq => h2 q (List.mem_cons_of_mem p hq)) acc
  have h0 : (runProviders provs).foldl (fun a q => a ++ q.2) ([] : List Finding) = [] :=
    hall provs h []
  simp only [scanFromProviderRuns, mergeAndDeduplicateFindings, h0, groupByName,
    localeSortByName]
  rw [show mapM (fun p : String × List Finding => mergeGroup p.2)
      (List.foldl groupByNameStep [] ([] : List Finding)) =
      Except.ok ([] : List Finding) from rfl]
  simp [List.mergeSort_nil]

/-- C6 witness: the theorem applied to four failing providers. -/
theorem scan_allProvidersFail_emptyResult_witness :
    scanFromProviderRuns 5
        [⟨"ast", Except.error "boom"⟩, ⟨"dotenv", Except.error "boom"⟩,
         ⟨"yaml", Except.error "boom"⟩, ⟨"shell", Except.error "boom"⟩] =
      Except.ok { findings := []
                  stats := { totalFiles := 5, totalFindings := 0, parseErrors := 0 } } :=
  scan_allProvidersFail_emptyResult 5 _ (by
    intro p hp
    simp only [List.mem_cons, List.not_mem_nil, or_false] at hp
    rcases hp with rfl | rfl | rfl | rfl <;> exact ⟨"boom", rfl⟩)

end EnvAudit
